import Mathlib

/-!
Verification development for the promptlog worker (`src/worker.tsx`).

The file embeds, as plain Lean functions and relations, the parts of the
worker that carry the spec's invariants: the content-addressing hash
(`idHash`), the two execution route handlers (`/execute` and `/run`), the
prompt-recording handler (`/generate`), the prompt-log store behind the
durable object, and the isolate registry behind the `LOADER` binding.
Isolate invocation is kept abstract as an oracle, except for the inline
default module of `/run`, whose fetch handler is translated directly.
-/

/-! ## Content addressing (worker.tsx lines 469-470 and 599-600)

`const idHash = [...code].reduce((a,c)=>a + c.charCodeAt(0), 0).toString(36);`

The JS spread `[...code]` yields one single-code-point string per Unicode
code point and `charCodeAt(0)` returns its first UTF-16 code unit, i.e. the
code point itself below 0x10000 and the high surrogate above. -/

def jsCharCodeAt0 (c : Char) : Nat :=
  if c.toNat < 65536 then c.toNat else 55296 + (c.toNat - 65536) / 1024

/-- The additive reduce `[...code].reduce((a,c)=>a + c.charCodeAt(0), 0)`. -/
def charSum (s : String) : Nat :=
  s.data.foldl (fun a c => a + jsCharCodeAt0 c) 0

/-- Digit characters of JS `Number.prototype.toString(36)`: `0`-`9` then `a`-`z`. -/
def base36DigitChar (d : Nat) : Char :=
  if d < 10 then Char.ofNat (48 + d) else Char.ofNat (87 + d)

/-- Fuelled digit emitter for base-36 rendering; `fuel ≥ n` suffices. -/
def toBase36Go (fuel n : Nat) (acc : List Char) : List Char :=
  match fuel with
  | 0 => acc
  | fuel + 1 => if n = 0 then acc else
      toBase36Go fuel (n / 36) (base36DigitChar (n % 36) :: acc)

/-- JS `n.toString(36)` for a natural number. -/
def toBase36 (n : Nat) : String :=
  if n = 0 then "0" else String.mk (toBase36Go n n [])

/-- Function `idHash` from worker.tsx (both occurrences compute the same function). -/
def idHash (code : String) : String := toBase36 (charSum code)

/-- The isolate id `ns:idHash(code)` — `tool:` on `/execute`, `demo:` on `/run`. -/
def isolateKey (ns code : String) : String := ns ++ ":" ++ idHash code

/-! ### Base-36 rendering is injective -/

def base36Val (c : Char) : Nat :=
  if 97 ≤ c.toNat then c.toNat - 87 else c.toNat - 48

def listVal (l : List Char) : Nat :=
  l.foldl (fun a c => a * 36 + base36Val c) 0


/-! ## Route handlers (worker.tsx lines 292-308, 443-566, 568-656)

Isolate invocation (`worker.getEntrypoint().fetch(url)`) is host capability;
it is abstracted as an oracle `Invoke` from (module source, decoded `q`
query parameter) to a response or a thrown error, except that the inline
default module of `/run` (lines 591-597) has its fetch handler translated
directly, so that executing it is concrete. Each handler also returns the
list of externally visible actions it performed, in order: the prompt-log
write, the `LOADER.get` call with its isolate id and build configuration,
and the fetch into the isolate. -/

/-- Whitespace for JS `trim()`: space, tab, line feed, carriage return,
vertical tab, form feed, no-break space (exotic Unicode spaces omitted;
no input in this development contains them). -/
def jsIsWhite (c : Char) : Bool :=
  c = ' ' || c = '\t' || c = '\n' || c = '\r' ||
  c = Char.ofNat 11 || c = Char.ofNat 12 || c = Char.ofNat 160

/-- JS `String.prototype.trim()`: strip leading and trailing whitespace. -/
def jsTrim (s : String) : String :=
  String.mk (((s.data.dropWhile jsIsWhite).reverse.dropWhile jsIsWhite).reverse)

/-- JS `a || b` on strings: the empty string is falsy. -/
def jsOr (a b : String) : String := if a.isEmpty then b else a

/-- JS `a || b` where `a` is string-or-null (`headers.get` result). -/
def jsOrNullable (o : Option String) (d : String) : String :=
  match o with
  | none => d
  | some s => jsOr s d

/-- JS `String.prototype.toUpperCase()` on the ASCII fragment. -/
def jsToUpper (s : String) : String := String.mk (s.data.map Char.toUpper)

/-- JS `s.length`: number of UTF-16 code units. -/
def utf16Len (s : String) : Nat :=
  s.data.foldl (fun a c => a + (if c.toNat < 65536 then 1 else 2)) 0

/-- The schema `PromptSchema = Schema.String.pipe(Schema.minLength(1), Schema.maxLength(16_384))`
(worker.tsx line 11); decoding a string succeeds iff this holds. -/
def validPrompt (p : String) : Bool :=
  decide (1 ≤ utf16Len p) && decide (utf16Len p ≤ 16384)

/-- The isolate build configuration object passed to `LOADER.get`'s callback.
`globalOutbound: null` is modelled as `none`. -/
structure IsolateConfig where
  compatibilityDate : String
  mainModule : String
  modules : List (String × String)
  env : List (String × String)
  globalOutbound : Option String
deriving DecidableEq

/-- A response from the dynamic isolate: body text plus the
`content-type` header (`none` when the header is absent). -/
structure JsResponse where
  bodyText : String
  contentType : Option String
deriving DecidableEq

deriving instance DecidableEq for Except

/-- Oracle for invoking an arbitrary user module: module source and decoded
`q` parameter to a response, or `error` for a thrown exception. -/
def Invoke : Type := String → String → Except String JsResponse

/-- Externally visible actions of a route handler, in program order. -/
inductive HostAction where
  | promptWrite (body : String) (ok : Bool)
  | loaderGet (isolateId : String) (cfg : IsolateConfig)
  | invokeFetch (path : String) (q : String)
deriving DecidableEq

/-- Holds (`true`) unless the action is a `LOADER.get` whose configuration grants
outbound network access. -/
def actionNoEgress (a : HostAction) : Bool :=
  match a with
  | HostAction.loaderGet _ cfg => cfg.globalOutbound.isNone
  | _ => true

/-- The config built on `/execute` (worker.tsx lines 490-496). -/
def executeConfig (code : String) : IsolateConfig :=
  { compatibilityDate := "2025-06-01"
    mainModule := "main.js"
    modules := [("main.js", code)]
    env := [("WHO", "dynamic-tool")]
    globalOutbound := none }

/-- The config built on `/run` (worker.tsx lines 629-639). -/
def runConfig (userModule : String) : IsolateConfig :=
  { compatibilityDate := "2025-06-01"
    mainModule := "main.js"
    modules := [("main.js", userModule)]
    env := [("WHO", "dynamic-sandbox")]
    globalOutbound := none }

/-- The inline default module substituted on `/run` when no code is given
(worker.tsx lines 591-597), verbatim. -/
def runDefaultModule : String :=
  "export default \x7b\n        async fetch(req, env, ctx) \x7b\n          const \x7b searchParams \x7d = new URL(req.url);\n          const prompt = searchParams.get(\"q\") ?? \"Hello\";\n          return new Response(prompt.toUpperCase(), \x7b headers: \x7b \"content-type\": \"text/plain\" \x7d\x7d);\n        \x7d\n      \x7d"

/-- The fetch handler of the default module, translated from its source:
`prompt = searchParams.get("q") ?? "Hello"; Response(prompt.toUpperCase(), ...)`. -/
def defaultModuleBody (q : Option String) : String := jsToUpper (q.getD "Hello")

/-- Invoke a module: the default module's behavior is concrete (its source
is fixed), every other module is the oracle's business. The synthetic URLs
always carry a `q` parameter. -/
def invokeModule (inv : Invoke) (m q : String) : Except String JsResponse :=
  if m = runDefaultModule then
    Except.ok { bodyText := defaultModuleBody (some q), contentType := some "text/plain" }
  else inv m q

/-- The rendered result page of `POST /execute` (worker.tsx lines 443-566). -/
inductive ExecutePage where
  | noCode
  | loaderUnavailable
  | toolResult (contentType : String) (bodyText : String)
  | executionError (msg : String)
deriving DecidableEq

/-- The rendered result page of `POST /run` (worker.tsx lines 568-656). -/
inductive RunPage where
  | loaderUnavailable
  | runResultPage (bodyText : String)
deriving DecidableEq

/-- The redirect issued by `POST /generate` (worker.tsx lines 292-308). -/
inductive GeneratePage where
  | redirectHome
  | redirectGenerate (prompt : String)
deriving DecidableEq

/-- Models `const testInput = input.trim() || prompt` (worker.tsx line 499). -/
def execTestInput (prompt input : String) : String := jsOr (jsTrim input) prompt

/-- Handler for `POST /execute` (worker.tsx lines 443-566): blank code short-circuits to
the "No Code to Execute" page; a missing LOADER binding to the
"Worker Loaders Not Available" page; otherwise the isolate keyed by
`tool:idHash(code)` is obtained and invoked, inside try/catch. -/
def executeHandler (inv : Invoke) (loaderPresent : Bool) (prompt code input : String) :
    ExecutePage × List HostAction :=
  if (jsTrim code).isEmpty then (ExecutePage.noCode, [])
  else if loaderPresent = false then (ExecutePage.loaderUnavailable, [])
  else
    let isolateId := "tool:" ++ idHash code
    let cfg := executeConfig code
    let testInput := execTestInput prompt input
    let acts := [HostAction.loaderGet isolateId cfg, HostAction.invokeFetch "http://tool/" testInput]
    match invokeModule inv code testInput with
    | Except.ok r =>
        (ExecutePage.toolResult (jsOrNullable r.contentType "text/plain") r.bodyText, acts)
    | Except.error e => (ExecutePage.executionError e, acts)

/-- Models `const result = await Effect.runPromise(...).catch((_e) => "")`
(worker.tsx lines 573-581): schema decoding is deterministic, so the two
retries change nothing and a failed validation yields `""`. -/
def runResult (prompt : String) : String := if validPrompt prompt then prompt else ""

/-- Models `(code && code.trim().length > 0) ? code : <default module>`
(worker.tsx lines 589-597). -/
def runUserModule (code : String) : String :=
  if !code.isEmpty && !(jsTrim code).isEmpty then code else runDefaultModule

/-- Handler for `POST /run` (worker.tsx lines 568-656): validates the prompt, writes the
(possibly emptied) result to the prompt log with `.catch(() => {})`, picks
the user module or the default, checks LOADER, and invokes the isolate keyed
by `demo:idHash(userModule)` with `q = result || prompt` — with no try/catch,
so a thrown invocation error escapes the handler (`Except.error`). -/
def runHandler (inv : Invoke) (loaderPresent logOk : Bool) (code prompt : String) :
    Except String RunPage × List HostAction :=
  let result := runResult prompt
  let writeAct := HostAction.promptWrite result logOk
  let userModule := runUserModule code
  let isolateId := "demo:" ++ idHash userModule
  if loaderPresent = false then (Except.ok RunPage.loaderUnavailable, [writeAct])
  else
    let q := jsOr result prompt
    let acts := [writeAct, HostAction.loaderGet isolateId (runConfig userModule),
      HostAction.invokeFetch "http://sandbox/run" q]
    match invokeModule inv userModule q with
    | Except.ok r => (Except.ok (RunPage.runResultPage r.bodyText), acts)
    | Except.error e => (Except.error e, acts)

/-- Handler for `POST /generate` (worker.tsx lines 292-308): blank prompts redirect home;
otherwise the prompt is written to the log with `.catch(() => {})` and the
handler redirects to `/generate?prompt=...`. -/
def generateHandler (logOk : Bool) (prompt : String) : GeneratePage × List HostAction :=
  if (jsTrim prompt).isEmpty then (GeneratePage.redirectHome, [])
  else (GeneratePage.redirectGenerate prompt, [HostAction.promptWrite prompt logOk])

/-! ## Prompt log store

The durable object class `PromptLog` lives in `src/do.tsx`, which is not
under src/ — only its callers (the `/recent`, `/generate`, `/run` and
`/clear` routes) are. The store is therefore modelled from spec §4.4. -/

/-- Modelled from the spec: `append(text)` on the missing `src/do.tsx`
store adds one `PromptEntry` to the durable ordered sequence. -/
def plAppend (st : List String) (x : String) : List String := st ++ [x]

/-- Modelled from the spec: `list()` on the missing `src/do.tsx` store
returns the current stored entries (empty sequence when none). -/
def plList (st : List String) : List String := st

/-- Modelled from the spec: `clear()` on the missing `src/do.tsx` store
removes all entries atomically. -/
def plClear (_st : List String) : List String := []

/-- Modelled from the spec: a mutating prompt-log operation (`list` is
read-only and changes nothing, so it is omitted from op sequences). -/
inductive PlOp where
  | append (s : String)
  | clear
deriving DecidableEq

/-- Whether a prompt-log operation is an `append`. -/
def PlOp.isApp : PlOp → Bool
  | PlOp.append _ => true
  | PlOp.clear => false

/-- Modelled from the spec: apply one operation to the store state. -/
def plApply (st : List String) : PlOp → List String
  | PlOp.append s => plAppend st s
  | PlOp.clear => plClear st

/-- Modelled from the spec: apply a serialized sequence of operations (the
store is a single logical owner, so operations are linearized). -/
def plRun (st : List String) (ops : List PlOp) : List String := ops.foldl plApply st

/-! ## Isolate registry

`LOADER.get(key, buildFn)` is the isolate registry of spec §4.2; only its
declaration (`env.d.ts`) and its call sites are under src/, so `getOrBuild`
is modelled from the spec as an interleaving state machine: any number of
concurrent callers present the same key; an absent entry admits exactly one
caller to run `buildFn` while the others wait; the built `Handle` is then
shared. The modulus is one key (the claim is per key). -/

/-- Modelled from the spec: the phase of one concurrent `getOrBuild`
caller — not yet scheduled, running `buildFn`, awaiting the single
in-flight build, or finished holding a `Handle` (a `Nat` id). -/
inductive CallerSt where
  | start
  | building
  | waiting
  | done (h : Nat)
deriving DecidableEq

/-- Modelled from the spec: the registry entry for the key — absent,
build in flight, or holding the built `Handle`. -/
inductive RegSlot where
  | empty
  | pending
  | ready (h : Nat)
deriving DecidableEq

/-- Modelled from the spec: registry state with `n` concurrent callers of
`getOrBuild` for the same key, plus a count of `buildFn` executions. -/
structure RegSys (n : Nat) where
  slot : RegSlot
  caller : Fin n → CallerSt
  builds : Nat

/-- Modelled from the spec: initially the key has no entry, no caller has
run, and `buildFn` has executed zero times. -/
def regInit (n : Nat) : RegSys n :=
  { slot := RegSlot.empty, caller := fun _ => CallerSt.start, builds := 0 }

/-- Modelled from the spec: one interleaving step of the registry, with
`hdl` the `Handle` that `buildFn` constructs. A caller that finds the entry
ready takes its handle; a caller that finds it absent starts the (counted)
build; a caller that finds a build in flight waits; the building caller
eventually publishes the handle; a waiting caller wakes on a ready entry. -/
inductive RegStep (n : Nat) (hdl : Nat) : RegSys n → RegSys n → Prop where
  | hitReady (s : RegSys n) (i : Fin n) (h : Nat) :
      s.caller i = CallerSt.start → s.slot = RegSlot.ready h →
      RegStep n hdl s { s with caller := Function.update s.caller i (CallerSt.done h) }
  | beginBuild (s : RegSys n) (i : Fin n) :
      s.caller i = CallerSt.start → s.slot = RegSlot.empty →
      RegStep n hdl s { slot := RegSlot.pending
                        caller := Function.update s.caller i CallerSt.building
                        builds := s.builds + 1 }
  | joinWait (s : RegSys n) (i : Fin n) :
      s.caller i = CallerSt.start → s.slot = RegSlot.pending →
      RegStep n hdl s { s with caller := Function.update s.caller i CallerSt.waiting }
  | finishBuild (s : RegSys n) (i : Fin n) :
      s.caller i = CallerSt.building →
      RegStep n hdl s { slot := RegSlot.ready hdl
                        caller := Function.update s.caller i (CallerSt.done hdl)
                        builds := s.builds }
  | wake (s : RegSys n) (i : Fin n) (h : Nat) :
      s.caller i = CallerSt.waiting → s.slot = RegSlot.ready h →
      RegStep n hdl s { s with caller := Function.update s.caller i (CallerSt.done h) }

/-- Reachability under any interleaving of registry steps. -/
def RegReach (n hdl : Nat) : RegSys n → RegSys n → Prop :=
  Relation.ReflTransGen (RegStep n hdl)

/-- Inductive invariant of the registry: an absent entry means no build has
run and every caller is unscheduled; an in-flight build means exactly one
build was started, by exactly one caller, and nobody holds a handle yet; a
ready entry holds the built handle, nobody is building, and every finished
caller holds that same handle. -/
def RegInv (n hdl : Nat) (s : RegSys n) : Prop :=
  match s.slot with
  | RegSlot.empty => s.builds = 0 ∧ ∀ i, s.caller i = CallerSt.start
  | RegSlot.pending => s.builds = 1 ∧
      (∃ j, s.caller j = CallerSt.building ∧
        ∀ i, i ≠ j → s.caller i ≠ CallerSt.building) ∧
      (∀ i, s.caller i ≠ CallerSt.building →
        s.caller i = CallerSt.start ∨ s.caller i = CallerSt.waiting)
  | RegSlot.ready h => h = hdl ∧ s.builds = 1 ∧
      (∀ i, s.caller i ≠ CallerSt.building) ∧
      (∀ i h2, s.caller i = CallerSt.done h2 → h2 = hdl)

/-- A concrete two-caller run of the registry model, used as a witness:
caller 0 begins the build, caller 1 joins as a waiter, the build finishes
with handle 7, caller 1 wakes up with the same handle. -/
def regDemo0 : RegSys 2 := regInit 2

/-- State after caller 0 begins the build. -/
def regDemo1 : RegSys 2 :=
  { slot := RegSlot.pending
    caller := Function.update regDemo0.caller 0 CallerSt.building
    builds := regDemo0.builds + 1 }

/-- State after caller 1 joins as a waiter. -/
def regDemo2 : RegSys 2 :=
  { regDemo1 with caller := Function.update regDemo1.caller 1 CallerSt.waiting }

/-- State after the build finishes with handle 7. -/
def regDemo3 : RegSys 2 :=
  { slot := RegSlot.ready 7
    caller := Function.update regDemo2.caller 0 (CallerSt.done 7)
    builds := regDemo2.builds }

/-- Final state: caller 1 has woken with the shared handle. -/
def regDemo4 : RegSys 2 :=
  { regDemo3 with caller := Function.update regDemo3.caller 1 (CallerSt.done 7) }

/-! # Theorems -/

/-! ## Base-36 arithmetic -/

theorem base36Val_digitChar : ∀ d < 36, base36Val (base36DigitChar d) = d := by
  decide

theorem toBase36Go_zero (fuel : Nat) (acc : List Char) :
    toBase36Go fuel 0 acc = acc := by
  cases fuel <;> simp [toBase36Go]

theorem toBase36Go_append (fuel : Nat) :
    ∀ n acc, toBase36Go fuel n acc = toBase36Go fuel n [] ++ acc := by
  induction fuel with
  | zero => intro n acc; simp [toBase36Go]
  | succ fuel ih =>
    intro n acc
    by_cases hn : n = 0
    · simp [toBase36Go, hn]
    · simp only [toBase36Go, hn, if_false]
      rw [ih (n / 36) (base36DigitChar (n % 36) :: acc),
        ih (n / 36) [base36DigitChar (n % 36)], List.append_assoc]
      rfl

theorem toBase36Go_fuel (n : Nat) : ∀ fuel fuel', n ≤ fuel → n ≤ fuel' →
    ∀ acc, toBase36Go fuel n acc = toBase36Go fuel' n acc := by
  induction n using Nat.strong_induction_on with
  | _ n ih =>
    intro fuel fuel' hf hf' acc
    by_cases hn : n = 0
    · subst hn; rw [toBase36Go_zero, toBase36Go_zero]
    · obtain ⟨f, rfl⟩ : ∃ f, fuel = f + 1 :=
        ⟨fuel - 1, (Nat.succ_pred_eq_of_pos (Nat.lt_of_lt_of_le (Nat.pos_of_ne_zero hn) hf)).symm⟩
      obtain ⟨f', rfl⟩ : ∃ g, fuel' = g + 1 :=
        ⟨fuel' - 1, (Nat.succ_pred_eq_of_pos (Nat.lt_of_lt_of_le (Nat.pos_of_ne_zero hn) hf')).symm⟩
      simp only [toBase36Go, hn, if_false]
      have hdiv : n / 36 < n := Nat.div_lt_self (Nat.pos_of_ne_zero hn) (by omega)
      exact ih (n / 36) hdiv f f' (by omega) (by omega) _

theorem listVal_snoc (l : List Char) (c : Char) :
    listVal (l ++ [c]) = listVal l * 36 + base36Val c := by
  simp [listVal, List.foldl_append]

theorem listVal_toBase36Go (n : Nat) : listVal (toBase36Go n n []) = n := by
  induction n using Nat.strong_induction_on with
  | _ n ih =>
    match n with
    | 0 => simp [toBase36Go, listVal]
    | m + 1 =>
      have hdiv : (m + 1) / 36 < m + 1 := Nat.div_lt_self (Nat.succ_pos m) (by omega)
      have h1 : toBase36Go (m + 1) (m + 1) [] =
          toBase36Go m ((m + 1) / 36) [base36DigitChar ((m + 1) % 36)] := by
        simp [toBase36Go]
      have h2 : toBase36Go m ((m + 1) / 36) [base36DigitChar ((m + 1) % 36)] =
          toBase36Go ((m + 1) / 36) ((m + 1) / 36) [] ++ [base36DigitChar ((m + 1) % 36)] := by
        rw [toBase36Go_append]
        congr 1
        exact toBase36Go_fuel ((m + 1) / 36) m ((m + 1) / 36) (by omega) (le_refl _) []
      rw [h1, h2, listVal_snoc, ih ((m + 1) / 36) hdiv,
        base36Val_digitChar ((m + 1) % 36) (Nat.mod_lt _ (by omega))]
      omega

theorem toBase36_injective : Function.Injective toBase36 := by
  intro n m h
  unfold toBase36 at h
  by_cases hn : n = 0 <;> by_cases hm : m = 0
  · omega
  · exfalso
    simp only [hn, if_true, hm, if_false] at h
    have hd : ("0" : String).data = (String.mk (toBase36Go m m [])).data := by rw [h]
    have : listVal (toBase36Go m m []) = listVal ['0'] := by
      simp only [String.mk] at hd
      rw [← hd]
    rw [listVal_toBase36Go] at this
    have h0 : listVal ['0'] = 0 := by decide
    omega
  · exfalso
    simp only [hn, if_false, hm, if_true] at h
    have hd : (String.mk (toBase36Go n n [])).data = ("0" : String).data := by rw [h]
    have : listVal (toBase36Go n n []) = listVal ['0'] := by
      simp only [String.mk] at hd
      rw [hd]
    rw [listVal_toBase36Go] at this
    have h0 : listVal ['0'] = 0 := by decide
    omega
  · simp only [hn, if_false, hm, if_false] at h
    have hd : toBase36Go n n [] = toBase36Go m m [] := by
      have := congrArg String.data h
      simpa [String.mk] using this
    have := congrArg listVal hd
    rwa [listVal_toBase36Go, listVal_toBase36Go] at this

/-! ### Claim C1 -/

/-- C1 (amended): within one namespace, two code strings receive the same
isolate key exactly when their additive character-code sums are equal; the
key function is deterministic but not injective on distinct code strings. -/
theorem isolateKey_eq_iff_charSum_eq (ns a b : String) :
    isolateKey ns a = isolateKey ns b ↔ charSum a = charSum b := by
  constructor
  · intro h
    unfold isolateKey idHash at h
    have hd := congrArg String.data h
    simp only [String.data_append] at hd
    have hdata := List.append_cancel_left hd
    exact toBase36_injective (String.ext hdata)
  · intro h
    unfold isolateKey idHash
    rw [h]

/-- C1 counterexample: the distinct code strings `"ab"` and `"ba"` are mapped
to the same isolate key `tool:5f`, so the original claim that distinct code
strings always get distinct keys (hash injectivity) is false. -/
theorem isolateKey_not_injective_ab_ba :
    isolateKey "tool" "ab" = isolateKey "tool" "ba" ∧ ("ab" : String) ≠ "ba" :=
  ⟨by decide, by decide⟩

/-! ## Claim C3 -/

/-- C3: on every code path that builds an isolate — the `/execute` and `/run`
configurations themselves and every `LOADER.get` action any handler ever
emits (the `/generate` handler emits none) — the configuration passed to the
runtime has `globalOutbound: null`, so no executed module receives network
egress capability. -/
theorem globalOutbound_always_disabled (inv : Invoke) (lp logOk : Bool)
    (prompt code input mcode gp : String) :
    (executeConfig code).globalOutbound = none ∧
    (runConfig mcode).globalOutbound = none ∧
    (executeHandler inv lp prompt code input).2.all actionNoEgress = true ∧
    (runHandler inv lp logOk code prompt).2.all actionNoEgress = true ∧
    (generateHandler logOk gp).2.all actionNoEgress = true := by
  refine ⟨rfl, rfl, ?_, ?_, ?_⟩
  · unfold executeHandler
    split
    · rfl
    · split
      · rfl
      · cases hinv : invokeModule inv code (execTestInput prompt input) <;>
          simp [hinv, actionNoEgress, executeConfig]
  · unfold runHandler
    split
    · simp [actionNoEgress]
    · cases hinv : invokeModule inv (runUserModule code) (jsOr (runResult prompt) prompt) <;>
        simp [hinv, actionNoEgress, runConfig]
  · unfold generateHandler
    split
    · rfl
    · simp [actionNoEgress]

/-! ## Claim C8 -/

/-- C8: at both call sites that record a prompt (`POST /generate` and
`POST /run`), a failure of the prompt-log append is swallowed
(`.catch(() => {})`) and the handler returns exactly the outcome it would
have returned had the append succeeded. -/
theorem log_failure_never_changes_outcome (inv : Invoke) (lp : Bool)
    (code prompt gp : String) :
    (runHandler inv lp true code prompt).1 = (runHandler inv lp false code prompt).1 ∧
    (generateHandler true gp).1 = (generateHandler false gp).1 := by
  constructor
  · cases lp with
    | false => rfl
    | true =>
        cases hinv : invokeModule inv (runUserModule code) (jsOr (runResult prompt) prompt) <;>
          simp [runHandler, hinv]
  · by_cases hp : (jsTrim gp).isEmpty <;> simp [generateHandler, hp]

/-! ## Claim C4 -/

/-- C4 counterexample: `execute("", "hello", "hello")` — the `/execute`
handler with empty code — does not substitute the default module and does
not return body `"HELLO"`; it renders the "No Code to Execute" page and
performs no build or invocation at all. -/
theorem execute_empty_code_yields_noCode :
    executeHandler (fun _ _ => Except.error "e") true "hello" "" "hello" =
      (ExecutePage.noCode, []) := by
  decide

/-- C4 (amended): only the `/run` route substitutes the fixed default
uppercase module for blank code; a `/run` request with blank code and
prompt `"hello"` runs that module and returns body text `"HELLO"`. The
`/execute` route instead short-circuits blank code to an error page. -/
theorem run_blank_code_uses_default_module (inv : Invoke) (logOk : Bool) (code : String)
    (h : (jsTrim code).isEmpty = true) :
    (runHandler inv true logOk code "hello").1 =
      Except.ok (RunPage.runResultPage "HELLO") := by
  have hm : runUserModule code = runDefaultModule := by
    unfold runUserModule
    rw [h]
    simp
  have hres : runResult "hello" = "hello" := by decide
  have hq : jsOr "hello" "hello" = "hello" := by decide
  have hinv : invokeModule inv runDefaultModule "hello" =
      Except.ok { bodyText := "HELLO", contentType := some "text/plain" } := by
    unfold invokeModule
    rw [if_pos rfl]
    decide
  simp only [runHandler, hm, hres, hq, hinv]
  simp

/-- C4 witness: the amended theorem applied at blank code `""`. -/
theorem run_blank_code_uses_default_module_witness :
    (jsTrim "").isEmpty = true ∧
    (runHandler (fun _ _ => Except.error "e") true true "" "hello").1 =
      Except.ok (RunPage.runResultPage "HELLO") :=
  ⟨by decide, run_blank_code_uses_default_module (fun _ _ => Except.error "e") true "" (by decide)⟩

/-! ## Claim C5 -/

/-- C5: when the LOADER binding is absent, both execution routes return the
distinct "Worker Loaders Not Available" page (not a build failure and not a
generic error), and the action trace contains no `LOADER.get` and no
invocation — only `/run`'s prompt-log write, which precedes the check. -/
theorem loader_absent_distinct_outcome (inv : Invoke) (logOk : Bool)
    (prompt code input : String) (h : (jsTrim code).isEmpty = false) :
    executeHandler inv false prompt code input = (ExecutePage.loaderUnavailable, []) ∧
    runHandler inv false logOk code prompt =
      (Except.ok RunPage.loaderUnavailable,
       [HostAction.promptWrite (runResult prompt) logOk]) := by
  constructor
  · unfold executeHandler
    simp [h]
  · unfold runHandler
    simp

/-- C5 witness: the theorem applied at code `"x"`, prompt `"p"`. -/
theorem loader_absent_distinct_outcome_witness :
    executeHandler (fun _ _ => Except.error "e") false "p" "x" "" =
      (ExecutePage.loaderUnavailable, []) ∧
    runHandler (fun _ _ => Except.error "e") false true "x" "p" =
      (Except.ok RunPage.loaderUnavailable,
       [HostAction.promptWrite (runResult "p") true]) :=
  loader_absent_distinct_outcome (fun _ _ => Except.error "e") true "p" "x" "" (by decide)

/-! ## Claim C6 -/

/-- C6 counterexample: on the `/run` route there is no try/catch around the
invocation, so a module that throws (`"boom"`) makes the handler itself
terminate with an uncaught exception (`Except.error "boom"`) instead of any
rendered outcome page — the claim that no exception from the executed
module propagates past the executor on every execution route is false. -/
theorem run_invocation_error_escapes :
    (runHandler (fun _ _ => Except.error "boom") true true "x" "p").1 =
      Except.error "boom" := by
  decide

/-- C6 (amended): on `/execute` a failed invocation is caught and rendered
as the Execution Error page, so no exception escapes that route; on `/run`
the same failure propagates uncaught past the handler. -/
theorem invocation_failure_containment (inv : Invoke) (logOk : Bool)
    (prompt code input e : String)
    (hc : (jsTrim code).isEmpty = false)
    (he : invokeModule inv code (execTestInput prompt input) = Except.error e)
    (he2 : invokeModule inv (runUserModule code) (jsOr (runResult prompt) prompt) =
      Except.error e) :
    (executeHandler inv true prompt code input).1 = ExecutePage.executionError e ∧
    (runHandler inv true logOk code prompt).1 = Except.error e := by
  constructor
  · unfold executeHandler
    simp [hc, he]
  · unfold runHandler
    simp [he2]

/-- C6 witness: the amended theorem applied at a throwing oracle. -/
theorem invocation_failure_containment_witness :
    (executeHandler (fun _ _ => Except.error "boom") true "p" "y" "").1 =
      ExecutePage.executionError "boom" ∧
    (runHandler (fun _ _ => Except.error "boom") true true "y" "p").1 =
      Except.error "boom" :=
  invocation_failure_containment (fun _ _ => Except.error "boom") true "p" "y" "" "boom"
    (by decide) (by decide) (by decide)

/-! ## Claim C7 -/

/-- C7 counterexample: an invocation that fails as an expired isolate would
(`"isolate expired"`) is surfaced immediately on `/execute`: the trace shows
exactly one `LOADER.get` and one invocation attempt — there is no silent
rebuild and no retried invocation before the error page, so the claimed
rebuild-once-and-retry behavior is absent. -/
theorem execute_error_single_attempt :
    executeHandler (fun _ _ => Except.error "isolate expired") true "p" "x" "" =
      (ExecutePage.executionError "isolate expired",
       [HostAction.loaderGet "tool:3c" (executeConfig "x"),
        HostAction.invokeFetch "http://tool/" "p"]) := by
  decide

/-- C7 (amended): when an invocation fails on `/execute`, the handler
surfaces the classified error after a single `LOADER.get` and a single
invocation attempt; rebuilds of expired isolates happen only implicitly on
later requests (the registry re-runs the build callback), never by a retry
within the failing request. -/
theorem invocation_failure_no_retry (inv : Invoke) (prompt code input e : String)
    (hc : (jsTrim code).isEmpty = false)
    (he : invokeModule inv code (execTestInput prompt input) = Except.error e) :
    executeHandler inv true prompt code input =
      (ExecutePage.executionError e,
       [HostAction.loaderGet ("tool:" ++ idHash code) (executeConfig code),
        HostAction.invokeFetch "http://tool/" (execTestInput prompt input)]) := by
  unfold executeHandler
  simp [hc, he]

/-- C7 witness: the amended theorem applied at code `"z"`. -/
theorem invocation_failure_no_retry_witness :
    executeHandler (fun _ _ => Except.error "gone") true "q" "z" "" =
      (ExecutePage.executionError "gone",
       [HostAction.loaderGet ("tool:" ++ idHash "z") (executeConfig "z"),
        HostAction.invokeFetch "http://tool/" (execTestInput "q" "")]) :=
  invocation_failure_no_retry (fun _ _ => Except.error "gone") "q" "z" "" "gone"
    (by decide) (by decide)

/-! ## Claim C10 -/

/-- C10: a `/run` request whose prompt fails `PromptSchema` validation
(empty, or longer than 16384 UTF-16 units) appends the empty string to the
prompt log, yet still invokes the sandboxed module with the original
unvalidated prompt as the `q` parameter. -/
theorem invalid_prompt_logs_empty_invokes_original (inv : Invoke) (logOk : Bool)
    (code prompt : String) (h : validPrompt prompt = false) :
    (runHandler inv true logOk code prompt).2 =
      [HostAction.promptWrite "" logOk,
       HostAction.loaderGet ("demo:" ++ idHash (runUserModule code))
         (runConfig (runUserModule code)),
       HostAction.invokeFetch "http://sandbox/run" prompt] := by
  have hres : runResult prompt = "" := by
    simp [runResult, h]
  have hq : jsOr "" prompt = prompt := rfl
  simp only [runHandler, hres, hq]
  cases hinv : invokeModule inv (runUserModule code) prompt <;> simp [hinv]

/-- C10 witness: the theorem applied at the invalid empty prompt. -/
theorem invalid_prompt_logs_empty_invokes_original_witness :
    validPrompt "" = false ∧
    (runHandler (fun _ _ => Except.ok { bodyText := "r", contentType := none })
        true true "x" "").2 =
      [HostAction.promptWrite "" true,
       HostAction.loaderGet ("demo:" ++ idHash (runUserModule "x"))
         (runConfig (runUserModule "x")),
       HostAction.invokeFetch "http://sandbox/run" ""] :=
  ⟨by decide,
   invalid_prompt_logs_empty_invokes_original
     (fun _ _ => Except.ok { bodyText := "r", contentType := none }) true "x" "" (by decide)⟩

/-! ## Claim C9 -/

/-- C9: after `append("x")` the listed entries contain `"x"`; after
`clear()` every subsequent `list()` returns the empty sequence as long as
no further `append` occurs (any sequence of non-append operations keeps the
store empty). -/
theorem promptLog_append_then_clear (st : List String) (x : String) (ops : List PlOp)
    (hops : ∀ op ∈ ops, PlOp.isApp op = false) :
    x ∈ plList (plAppend st x) ∧ plList (plRun (plClear st) ops) = [] := by
  constructor
  · simp [plList, plAppend]
  · have hgen : ∀ (l : List PlOp), (∀ op ∈ l, PlOp.isApp op = false) → plRun [] l = [] := by
      intro l
      induction l with
      | nil => intro _; rfl
      | cons op tl ih =>
          intro hl
          have hop := hl op (List.mem_cons_self op tl)
          cases op with
          | append s => simp [PlOp.isApp] at hop
          | clear =>
              have htl := ih (fun o ho => hl o (List.mem_cons_of_mem _ ho))
              simpa [plRun, plApply, plClear] using htl
    simpa [plClear, plList] using hgen ops hops

/-- C9 witness: the theorem applied to a one-entry store, the appended
entry `"x"`, and two trailing clears. -/
theorem promptLog_append_then_clear_witness :
    "x" ∈ plList (plAppend ["a"] "x") ∧
    plList (plRun (plClear ["a"]) [PlOp.clear, PlOp.clear]) = [] :=
  promptLog_append_then_clear ["a"] "x" [PlOp.clear, PlOp.clear] (by decide)

/-! ## Claim C2 -/

theorem regInv_init (n hdl : Nat) : RegInv n hdl (regInit n) :=
  ⟨rfl, fun _ => rfl⟩

theorem regInv_step {n hdl : Nat} {s t : RegSys n} (hs : RegInv n hdl s)
    (hst : RegStep n hdl s t) : RegInv n hdl t := by
  cases hst with
  | hitReady i h hc hslot =>
      simp only [RegInv, hslot] at hs ⊢
      obtain ⟨hh, hb, hnb, hdn⟩ := hs
      refine ⟨hh, hb, ?_, ?_⟩
      · intro j
        by_cases hji : j = i
        · subst hji
          rw [Function.update_same]
          simp
        · rw [Function.update_noteq hji]
          exact hnb j
      · intro j h2 hj
        by_cases hji : j = i
        · subst hji
          rw [Function.update_same] at hj
          injection hj with h3
          omega
        · rw [Function.update_noteq hji] at hj
          exact hdn j h2 hj
  | beginBuild i hc hslot =>
      simp only [RegInv, hslot] at hs
      obtain ⟨hb, hall⟩ := hs
      simp only [RegInv]
      refine ⟨by omega, ⟨i, Function.update_same i CallerSt.building s.caller, ?_⟩, ?_⟩
      · intro j hji
        rw [Function.update_noteq hji, hall j]
        simp
      · intro j hjnb
        by_cases hji : j = i
        · subst hji
          exact absurd (Function.update_same j CallerSt.building s.caller) hjnb
        · rw [Function.update_noteq hji]
          left
          exact hall j
  | joinWait i hc hslot =>
      simp only [RegInv, hslot] at hs ⊢
      obtain ⟨hb, ⟨j0, hj0, huniq⟩, hrest⟩ := hs
      have hj0i : j0 ≠ i := by
        intro he
        rw [he, hc] at hj0
        cases hj0
      refine ⟨hb, ⟨j0, ?_, ?_⟩, ?_⟩
      · rw [Function.update_noteq hj0i]
        exact hj0
      · intro k hk
        by_cases hki : k = i
        · subst hki
          rw [Function.update_same]
          simp
        · rw [Function.update_noteq hki]
          exact huniq k hk
      · intro k hknb
        by_cases hki : k = i
        · subst hki
          rw [Function.update_same]
          right
          rfl
        · rw [Function.update_noteq hki] at hknb ⊢
          exact hrest k hknb
  | finishBuild i hc =>
      rcases hslot : s.slot with _ | _ | h
      · simp only [RegInv, hslot] at hs
        obtain ⟨_, hall⟩ := hs
        rw [hall i] at hc
        cases hc
      · simp only [RegInv, hslot] at hs
        obtain ⟨hb, ⟨j0, hj0, huniq⟩, hrest⟩ := hs
        have hij0 : i = j0 := by
          by_contra hne
          exact huniq i hne hc
        subst hij0
        simp only [RegInv]
        refine ⟨trivial, hb, ?_, ?_⟩
        · intro k
          by_cases hki : k = i
          · subst hki
            rw [Function.update_same]
            simp
          · rw [Function.update_noteq hki]
            exact huniq k hki
        · intro k h2 hk
          by_cases hki : k = i
          · subst hki
            rw [Function.update_same] at hk
            injection hk with h3
            omega
          · rw [Function.update_noteq hki] at hk
            have h4 := hrest k (by rw [hk]; simp)
            rcases h4 with h4 | h4 <;> rw [hk] at h4 <;> cases h4
      · simp only [RegInv, hslot] at hs
        exact absurd hc (hs.2.2.1 i)
  | wake i h hc hslot =>
      simp only [RegInv, hslot] at hs ⊢
      obtain ⟨hh, hb, hnb, hdn⟩ := hs
      refine ⟨hh, hb, ?_, ?_⟩
      · intro j
        by_cases hji : j = i
        · subst hji
          rw [Function.update_same]
          simp
        · rw [Function.update_noteq hji]
          exact hnb j
      · intro j h2 hj
        by_cases hji : j = i
        · subst hji
          rw [Function.update_same] at hj
          injection hj with h3
          omega
        · rw [Function.update_noteq hji] at hj
          exact hdn j h2 hj

theorem regInv_reach {n hdl : Nat} {s t : RegSys n} (h : RegReach n hdl s t)
    (hs : RegInv n hdl s) : RegInv n hdl t := by
  induction h with
  | refl => exact hs
  | tail _ hbc ih => exact regInv_step ih hbc

/-- C2: in the registry model, under any interleaving of any number of
concurrent `getOrBuild` callers for one key, once every caller has
finished, the build function has executed exactly once and every caller
holds the same handle — the one the single build constructed. -/
theorem getOrBuild_exactly_once (n hdl : Nat) (s : RegSys n) (hn : 0 < n)
    (hreach : RegReach n hdl (regInit n) s)
    (hdone : ∀ i, ∃ h, s.caller i = CallerSt.done h) :
    s.builds = 1 ∧ ∀ i, s.caller i = CallerSt.done hdl := by
  have hinv := regInv_reach hreach (regInv_init n hdl)
  rcases hslot : s.slot with _ | _ | h
  · simp only [RegInv, hslot] at hinv
    obtain ⟨_, hall⟩ := hinv
    obtain ⟨h0, hd0⟩ := hdone ⟨0, hn⟩
    rw [hall ⟨0, hn⟩] at hd0
    cases hd0
  · simp only [RegInv, hslot] at hinv
    obtain ⟨_, _, hrest⟩ := hinv
    obtain ⟨h0, hd0⟩ := hdone ⟨0, hn⟩
    have h4 := hrest ⟨0, hn⟩ (by rw [hd0]; simp)
    rcases h4 with h4 | h4 <;> rw [hd0] at h4 <;> cases h4
  · simp only [RegInv, hslot] at hinv
    obtain ⟨hh, hb, _, hdn⟩ := hinv
    refine ⟨hb, fun i => ?_⟩
    obtain ⟨hi, hdi⟩ := hdone i
    have h5 := hdn i hi hdi
    rw [h5] at hdi
    exact hdi

/-- C2 witness: the theorem applied to the concrete two-caller
interleaving `regDemo0 → regDemo4` with handle 7. -/
theorem getOrBuild_exactly_once_witness :
    regDemo4.builds = 1 ∧
    regDemo4.caller 0 = CallerSt.done 7 ∧ regDemo4.caller 1 = CallerSt.done 7 := by
  have st1 : RegStep 2 7 regDemo0 regDemo1 := RegStep.beginBuild regDemo0 0 rfl rfl
  have st2 : RegStep 2 7 regDemo1 regDemo2 := RegStep.joinWait regDemo1 1 rfl rfl
  have st3 : RegStep 2 7 regDemo2 regDemo3 := RegStep.finishBuild regDemo2 0 rfl
  have st4 : RegStep 2 7 regDemo3 regDemo4 := RegStep.wake regDemo3 1 7 rfl rfl
  have hreach : RegReach 2 7 (regInit 2) regDemo4 :=
    Relation.ReflTransGen.tail
      (Relation.ReflTransGen.tail
        (Relation.ReflTransGen.tail
          (Relation.ReflTransGen.tail Relation.ReflTransGen.refl st1) st2) st3) st4
  have hdone : ∀ i : Fin 2, ∃ h, regDemo4.caller i = CallerSt.done h := by
    intro i
    refine ⟨7, ?_⟩
    fin_cases i <;> rfl
  have hmain := getOrBuild_exactly_once 2 7 regDemo4 (by omega) hreach hdone
  exact ⟨hmain.1, hmain.2 0, hmain.2 1⟩
